import Mathlib

/-!
Verification of the CargoSOS Bitcoin SPV node (block chain engine, initial
download, wallet) against its natural-language specification.

The Rust sources are embedded shallowly: bytes are `Nat` (0..255), machine
integers are `Nat`/`Int` with explicit reduction modulo `2 ^ w` where overflow
matters, streams are lists, and fallible operations return `Except`/`Option`.
Loops whose termination is itself in question are given an explicit fuel
parameter; `none` means the fuel ran out.

Where a module of the repository is referenced but its file is absent from the
source tree (for example `node_chain.rs`, `transaction.rs`, `outpoint.rs`,
`utxo_set.rs`, `compact_size.rs`, the serialization primitives), the
corresponding definition is marked `Modelled from the spec:` and follows the
specification's words.
-/

set_option maxRecDepth 100000

deriving instance DecidableEq for Except

namespace CargoSOS

/-- Byte strings are lists of naturals; every byte produced here is < 256. -/
abbrev Bytes := List Nat

/-- Modelled from the spec: little-endian encoding of a 32-bit integer
(serialization primitives are not in the source tree; the spec fixes
little-endian integer encoding). -/
def u32LE (n : Nat) : Bytes :=
  [n % 256, n / 256 % 256, n / 65536 % 256, n / 16777216 % 256]

/-- Modelled from the spec: little-endian encoding of a 64-bit integer. -/
def u64LE (n : Nat) : Bytes :=
  [n % 256, n / 256 % 256, n / 65536 % 256, n / 16777216 % 256,
   n / 4294967296 % 256, n / 1099511627776 % 256,
   n / 281474976710656 % 256, n / 72057594037927936 % 256]

/-- Modelled from the spec: little-endian two's-complement encoding of a signed
64-bit integer (transaction output values are signed 64-bit satoshis). -/
def i64LE (v : Int) : Bytes :=
  u64LE ((v % (2 ^ 64)).toNat)

/-- Modelled from the spec: Bitcoin CompactSize — one byte if the value is
below 0xFD, else a marker byte followed by 2/4/8 little-endian bytes. -/
def compactSizeEncode (n : Nat) : Bytes :=
  if n < 0xFD then [n]
  else if n ≤ 0xFFFF then 0xFD :: [n % 256, n / 256 % 256]
  else if n ≤ 0xFFFFFFFF then 0xFE :: u32LE n
  else 0xFF :: u64LE n

/-! ## SHA-256 (FIPS 180-4), the primitive behind `hash256d`

The repository delegates double SHA-256 to the external `bitcoin_hashes`
crate; the compression function below is the standard one, written with
structural recursion only so the kernel can evaluate it inside `decide`. -/

/-- The eight 32-bit working variables of the SHA-256 compression function. -/
structure Sha256State where
  a : Nat
  b : Nat
  c : Nat
  d : Nat
  e : Nat
  f : Nat
  g : Nat
  h : Nat

/-- Right rotation of a 32-bit word. -/
def rotr32 (w n : Nat) : Nat :=
  ((w >>> n) ||| (w <<< (32 - n))) % 4294967296

/-- SHA-256 small sigma 0. -/
def ssig0 (w : Nat) : Nat :=
  (rotr32 w 7) ^^^ (rotr32 w 18) ^^^ (w >>> 3)

/-- SHA-256 small sigma 1. -/
def ssig1 (w : Nat) : Nat :=
  (rotr32 w 17) ^^^ (rotr32 w 19) ^^^ (w >>> 10)

/-- SHA-256 big sigma 0. -/
def bsig0 (w : Nat) : Nat :=
  (rotr32 w 2) ^^^ (rotr32 w 13) ^^^ (rotr32 w 22)

/-- SHA-256 big sigma 1. -/
def bsig1 (w : Nat) : Nat :=
  (rotr32 w 6) ^^^ (rotr32 w 11) ^^^ (rotr32 w 25)

/-- The SHA-256 round constants. -/
def sha256K : List Nat :=
  [1116352408, 1899447441, 3049323471, 3921009573, 961987163,
   1508970993, 2453635748, 2870763221, 3624381080, 310598401,
   607225278, 1426881987, 1925078388, 2162078206, 2614888103,
   3248222580, 3835390401, 4022224774, 264347078, 604807628,
   770255983, 1249150122, 1555081692, 1996064986, 2554220882,
   2821834349, 2952996808, 3210313671, 3336571891, 3584528711,
   113926993, 338241895, 666307205, 773529912, 1294757372,
   1396182291, 1695183700, 1986661051, 2177026350, 2456956037,
   2730485921, 2820302411, 3259730800, 3345764771, 3516065817,
   3600352804, 4094571909, 275423344, 430227734, 506948616,
   659060556, 883997877, 958139571, 1322822218, 1537002063,
   1747873779, 1955562222, 2024104815, 2227730452, 2361852424,
   2428436474, 2756734187, 3204031479, 3329325298]

/-- The SHA-256 initial hash value. -/
def sha256H0 : Sha256State :=
  ⟨1779033703, 3144134277, 1013904242, 2773480762,
   1359893119, 2600822924, 528734635, 1541459225⟩

/-- Extend the first 16 message-schedule words to 64. The accumulator holds
the schedule most-recent-first; `k` counts the remaining extensions. -/
def sha256Extend : Nat → List Nat → List Nat
  | 0, acc => acc.reverse
  | k + 1, acc =>
      let w2 := acc.getD 1 0
      let w7 := acc.getD 6 0
      let w15 := acc.getD 14 0
      let w16 := acc.getD 15 0
      sha256Extend k (((ssig1 w2 + w7 + ssig0 w15 + w16) % 4294967296) :: acc)

/-- One SHA-256 round. -/
def sha256Round (st : Sha256State) (k w : Nat) : Sha256State :=
  let t1 := (st.h + bsig1 st.e + ((st.e &&& st.f) ^^^ ((st.e ^^^ 4294967295) &&& st.g))
              + k + w) % 4294967296
  let t2 := (bsig0 st.a + ((st.a &&& st.b) ^^^ (st.a &&& st.c) ^^^ (st.b &&& st.c)))
              % 4294967296
  ⟨(t1 + t2) % 4294967296, st.a, st.b, st.c, (st.d + t1) % 4294967296,
    st.e, st.f, st.g⟩

/-- Run the 64 rounds over paired constants and schedule words. -/
def sha256Rounds : List Nat → List Nat → Sha256State → Sha256State
  | [], _, st => st
  | _, [], st => st
  | k :: ks, w :: ws, st => sha256Rounds ks ws (sha256Round st k w)

/-- Load a 64-byte block as 16 big-endian 32-bit words. -/
def bytesToWords : Bytes → List Nat
  | b0 :: b1 :: b2 :: b3 :: rest =>
      (b0 * 16777216 + b1 * 65536 + b2 * 256 + b3) :: bytesToWords rest
  | _ => []

/-- Compress one 64-byte block into the running state. -/
def sha256Compress (st : Sha256State) (block : Bytes) : Sha256State :=
  let ws := sha256Extend 48 (bytesToWords block).reverse
  let r := sha256Rounds sha256K ws st
  ⟨(st.a + r.a) % 4294967296, (st.b + r.b) % 4294967296,
   (st.c + r.c) % 4294967296, (st.d + r.d) % 4294967296,
   (st.e + r.e) % 4294967296, (st.f + r.f) % 4294967296,
   (st.g + r.g) % 4294967296, (st.h + r.h) % 4294967296⟩

/-- SHA-256 padding: a 0x80 byte, zeros to 56 mod 64, the bit length as eight
big-endian bytes. -/
def sha256Pad (msg : Bytes) : Bytes :=
  let len := msg.length
  let zeros := (64 + 55 - len % 64) % 64
  let bits := len * 8
  msg ++ [0x80] ++ List.replicate zeros 0 ++
    [bits / 72057594037927936 % 256, bits / 281474976710656 % 256,
     bits / 1099511627776 % 256, bits / 4294967296 % 256,
     bits / 16777216 % 256, bits / 65536 % 256, bits / 256 % 256, bits % 256]

/-- Split a padded message into 64-byte blocks; the fuel bounds the number of
blocks and any value at least the message length is enough. -/
def sha256Blocks : Nat → Bytes → List Bytes
  | 0, _ => []
  | _, [] => []
  | fuel + 1, l => l.take 64 :: sha256Blocks fuel (l.drop 64)

/-- Emit a 32-bit word as four big-endian bytes. -/
def wordBE (w : Nat) : Bytes :=
  [w / 16777216 % 256, w / 65536 % 256, w / 256 % 256, w % 256]

/-- The SHA-256 digest of a byte string, as its 32 raw bytes. -/
def sha256 (msg : Bytes) : Bytes :=
  let padded := sha256Pad msg
  let st := (sha256Blocks padded.length padded).foldl sha256Compress sha256H0
  wordBE st.a ++ wordBE st.b ++ wordBE st.c ++ wordBE st.d ++
  wordBE st.e ++ wordBE st.f ++ wordBE st.g ++ wordBE st.h

/-- Double SHA-256, the repository's `hash256d` (src/block_structure/hash.rs,
which delegates to the `bitcoin_hashes` crate's `sha256d`). -/
def hash256d (bytes : Bytes) : Bytes :=
  sha256 (sha256 bytes)

/-- Modelled from the spec: `hash256` is imported by
`src/block_structure/transaction_input.rs` and `transaction_coinbase.rs` but
absent from the `hash.rs` present in the tree; the spec's digest for both
txids and signing preimages is double SHA-256, so `hash256` is modelled as
double SHA-256. -/
def hash256 (bytes : Bytes) : Bytes :=
  hash256d bytes

/-! ## Compact256 and block headers (src/block_structure/compact256.rs,
block_header.rs) -/

/-- The 4-byte compact representation of a 256-bit target: an exponent byte
and a 3-byte significand (src/block_structure/compact256.rs). -/
structure Compact256 where
  mantissa0 : Nat
  mantissa1 : Nat
  mantissa2 : Nat
  exponent : Nat
deriving DecidableEq

/-- Rust `From<u32> for Compact256`: big-endian bytes of the word, exponent
first. -/
def Compact256.fromU32 (v : Nat) : Compact256 :=
  ⟨v / 65536 % 256, v / 256 % 256, v % 256, v / 16777216 % 256⟩

/-- Rust `From<Compact256> for u32`: recompose the big-endian word. -/
def Compact256.toU32 (c : Compact256) : Nat :=
  c.exponent * 16777216 + c.mantissa0 * 65536 + c.mantissa1 * 256 + c.mantissa2

/-- Count of leading zero bytes of a byte string. -/
def countLeadingZeroBytes : Bytes → Nat
  | [] => 0
  | b :: rest => if b = 0 then countLeadingZeroBytes rest + 1 else 0

/-- Rust `TryFrom<HashType> for Compact256`: the exponent is 0x1F minus the
number of leading zero bytes, the mantissa the three bytes from the first
non-zero byte on (missing bytes stay zero). On an all-zero hash the Rust code
would underflow the `u8` exponent and panic in debug builds; that case is
unreachable on real digests and is modelled by truncated `Nat` subtraction. -/
def Compact256.fromBytes (value : Bytes) : Compact256 :=
  let k := countLeadingZeroBytes value
  let position := if k < value.length then k else 0
  ⟨value.getD position 0, value.getD (position + 1) 0, value.getD (position + 2) 0,
    31 - k⟩

/-- Block version (src/block_structure/block_version.rs is absent from the
tree; the spec fixes a 4-byte integer on the wire). -/
abbrev BlockVersion := Nat

/-- The block header (src/block_structure/block_header.rs). -/
structure BlockHeader where
  version : BlockVersion
  previous_block_header_hash : Bytes
  merkle_root_hash : Bytes
  time : Nat
  n_bits : Compact256
  nonce : Nat
deriving DecidableEq

/-- The genesis header constants of src/block_structure/block_header.rs. -/
def generateGenesisBlockHeader : BlockHeader :=
  { version := 1
    previous_block_header_hash := List.replicate 32 0
    merkle_root_hash :=
      [0x3b, 0xa3, 0xed, 0xfd, 0x7a, 0x7b, 0x12, 0xb2, 0x7a, 0xc7, 0x2c, 0x3e,
       0x67, 0x76, 0x8f, 0x61, 0x7f, 0xc8, 0x1b, 0xc3, 0x88, 0x8a, 0x51, 0x32,
       0x3a, 0x9f, 0xb8, 0xaa, 0x4b, 0x1e, 0x5e, 0x4a]
    time := 1231013705
    n_bits := Compact256.fromU32 0x1d00ffff
    nonce := 2083236893 }

/-- Serialization of a block header (the `Serializable` impl in
src/block_structure/block_header.rs): version, previous hash, merkle root,
time, the compact target as a little-endian u32, nonce. -/
def serializeBlockHeader (h : BlockHeader) : Bytes :=
  u32LE h.version ++ h.previous_block_header_hash ++ h.merkle_root_hash ++
  u32LE h.time ++ u32LE h.n_bits.toU32 ++ u32LE h.nonce

/-- Modelled from the spec: a header's identity is the double SHA-256 of its
80 serialized bytes (`get_hash256d` is called throughout the tree but defined
in a file variant absent from src/). -/
def blockHeaderHash (h : BlockHeader) : Bytes :=
  hash256d (serializeBlockHeader h)

/-- Proof of work as the source computes it
(src/block_structure/block_header.rs, `BlockHeader::proof_of_work`): the
header's compact target word must be strictly greater than the compact word
derived from the header's double SHA-256. -/
def proofOfWork (h : BlockHeader) : Bool :=
  decide ((Compact256.fromBytes (hash256d (serializeBlockHeader h))).toU32
            < h.n_bits.toU32)

/-! ## Transactions (transaction.rs, outpoint.rs, transaction_output.rs are
absent from src/; modelled from the spec's data model; transaction_input.rs
is in src/) -/

/-- Modelled from the spec: an outpoint is a 32-byte prior txid plus a 4-byte
index. -/
structure Outpoint where
  hash : Bytes
  index : Nat
deriving DecidableEq

/-- Modelled from the spec: outpoint serialization, the txid bytes then the
index little-endian. -/
def serializeOutpoint (o : Outpoint) : Bytes :=
  o.hash ++ u32LE o.index

/-- A transaction input (src/block_structure/transaction_input.rs). -/
structure TransactionInput where
  previous_output : Outpoint
  signature_script : Bytes
  sequence : Nat
deriving DecidableEq

/-- Serialization of a transaction input (the `SerializableInternalOrder`
impl in src/block_structure/transaction_input.rs): outpoint, CompactSize
script length, script bytes, sequence. -/
def serializeTransactionInput (i : TransactionInput) : Bytes :=
  serializeOutpoint i.previous_output ++
  compactSizeEncode i.signature_script.length ++
  i.signature_script ++ u32LE i.sequence

/-- Modelled from the spec: a transaction output is a signed 64-bit value in
satoshis plus a pk-script. -/
structure TransactionOutput where
  value : Int
  pk_script : Bytes
deriving DecidableEq

/-- Modelled from the spec: output serialization, the value as 8 little-endian
bytes then the length-prefixed script. -/
def serializeTransactionOutput (o : TransactionOutput) : Bytes :=
  i64LE o.value ++ compactSizeEncode o.pk_script.length ++ o.pk_script

/-- Modelled from the spec: a transaction is a version, inputs, outputs and a
locktime/time field. -/
structure Transaction where
  version : Nat
  tx_in : List TransactionInput
  tx_out : List TransactionOutput
  time : Nat
deriving DecidableEq

/-- Modelled from the spec: transaction serialization — 4-byte version,
length-prefixed inputs, length-prefixed outputs, 4-byte time. -/
def serializeTransaction (t : Transaction) : Bytes :=
  u32LE t.version ++
  compactSizeEncode t.tx_in.length ++
  (t.tx_in.map serializeTransactionInput).flatten ++
  compactSizeEncode t.tx_out.length ++
  (t.tx_out.map serializeTransactionOutput).flatten ++
  u32LE t.time

/-- The txid: `hash256` of the serialized transaction (as in
src/block_structure/transaction_coinbase.rs; the spec's identity for a
transaction is its double SHA-256). -/
def getTxId (t : Transaction) : Bytes :=
  hash256 (serializeTransaction t)

/-! ## Blocks and proof of inclusion (src/block_structure/block.rs,
block_header.rs) -/

/-- A block: header plus ordered transactions
(src/block_structure/block.rs). -/
structure Block where
  header : BlockHeader
  transactions : List Transaction
deriving DecidableEq

/-- `Block::new`: a header-only block. -/
def Block.new (h : BlockHeader) : Block :=
  ⟨h, []⟩

/-- One combining pass of the merkle loop in
`BlockHeader::proof_of_inclusion`: hash adjacent pairs; an unpaired trailing
hash makes the Rust code return `false`, modelled as `none`. -/
def combinePairs : List Bytes → Option (List Bytes)
  | [] => some []
  | [_] => none
  | a :: b :: rest => (combinePairs rest).map (fun l => hash256d (a ++ b) :: l)

/-- The `while hashes.len() > 1` loop of `BlockHeader::proof_of_inclusion`:
duplicate the last hash on odd levels, then combine pairs. The fuel only
bounds the iteration count; the level list at least halves each round, so any
fuel at least the initial length is enough. -/
def merkleRounds : Nat → List Bytes → Option (List Bytes)
  | 0, hs => if hs.length > 1 then none else some hs
  | fuel + 1, hs =>
      if hs.length > 1 then
        let hs' := if hs.length % 2 = 1 then
            match hs.getLast? with
            | some last => hs ++ [last]
            | none => hs
          else hs
        match combinePairs hs' with
        | none => none
        | some nh => merkleRounds fuel nh
      else some hs

/-- `BlockHeader::proof_of_inclusion` (src/block_structure/block_header.rs):
fold the ordered txids into a merkle root and compare it with the header's
merkle-root field; an empty transaction list leaves no root and yields
`false`. -/
def proofOfInclusionHeader (h : BlockHeader) (transactions : List Transaction) : Bool :=
  let hashes := transactions.map getTxId
  match merkleRounds hashes.length hashes with
  | none => false
  | some hs =>
      match hs.head? with
      | some root => root == h.merkle_root_hash
      | none => false

/-- `Block::proof_of_inclusion` (src/block_structure/block.rs). -/
def Block.proofOfInclusion (b : Block) : Bool :=
  proofOfInclusionHeader b.header b.transactions

/-! ## The block chain tree (src/block_structure/block_chain.rs; node_chain.rs
is absent from src/ and modelled from the spec) -/

/-- The block errors of error_block.rs used by the chain engine. -/
inductive ErrorBlock where
  | TransactionAlreadyInBlock
  | CouldNotAppendBlock
  | CouldNotUpdate
  | NodeChainReferenceNotFound
deriving DecidableEq

/-- Modelled from the spec: a chain node carries its block and an optional
parent index into the flat node vector (node_chain.rs is absent from src/). -/
structure NodeChain where
  block : Block
  index_previous_node : Option Nat
deriving DecidableEq

/-- Modelled from the spec: the root node, with no parent. -/
def NodeChain.first (b : Block) : NodeChain :=
  ⟨b, none⟩

/-- Modelled from the spec: a non-root node recording its parent index. -/
def NodeChain.mk' (b : Block) (index : Nat) : NodeChain :=
  ⟨b, some index⟩

/-- Modelled from the spec: two nodes are the same block when their header
identities (double SHA-256 of the 80 header bytes) coincide. -/
def NodeChain.isEqual (n : NodeChain) (b : Block) : Bool :=
  blockHeaderHash n.block.header == blockHeaderHash b.header

/-- Modelled from the spec: a node is the predecessor of a block when the
block's `previous_block_header_hash` equals the node's header identity. -/
def NodeChain.isPreviousOf (n : NodeChain) (b : Block) : Bool :=
  blockHeaderHash n.block.header == b.header.previous_block_header_hash

/-- The chain: a flat node vector plus the tip indices
(src/block_structure/block_chain.rs). -/
structure BlockChain where
  blocks : List NodeChain
  last_blocks : List Nat
deriving DecidableEq

/-- `BlockChain::new`: a single root node which is also the only tip. -/
def BlockChain.new (b : Block) : BlockChain :=
  ⟨[NodeChain.first b], [0]⟩

/-- The inner `while let Some(index_previous_node) = last_block.index_previous_node`
loop of `BlockChain::append_block`. The Rust loop shadows `last_block` inside
the body, so its condition keeps reading the unchanged outer tip node `tnode`:
the examined predecessor never advances. `none` means the fuel ran out with
the loop still running. The inner result is `some none` when the loop falls
through (tip without parent) and `some (some r)` when the body returns. -/
def appendInnerLoop (chain : BlockChain) (tnode : NodeChain) (tipIdx : Nat)
    (b : Block) : Nat → Option (Option (Except ErrorBlock BlockChain))
  | 0 => none
  | fuel + 1 =>
      match tnode.index_previous_node with
      | none => some none
      | some p =>
          match chain.blocks[p]? with
          | none => some (some (Except.error ErrorBlock.NodeChainReferenceNotFound))
          | some pnode =>
              if pnode.isEqual b then
                some (some (Except.error ErrorBlock.TransactionAlreadyInBlock))
              else if pnode.isPreviousOf b then
                some (some (Except.ok
                  { blocks := chain.blocks ++ [NodeChain.mk' b tipIdx]
                    last_blocks := chain.last_blocks ++ [chain.blocks.length] }))
              else appendInnerLoop chain tnode tipIdx b fuel

/-- The outer `for (i, index_last_block) in self.last_blocks.clone()` loop of
`BlockChain::append_block`; `i` is the position in the cloned tip list and
`tips` its not-yet-visited suffix. -/
def appendBlockGo (chain : BlockChain) (b : Block) :
    Nat → List Nat → Nat → Option (Except ErrorBlock BlockChain)
  | _, [], _ => some (Except.error ErrorBlock.CouldNotAppendBlock)
  | i, t :: tips, fuel =>
      match chain.blocks[t]? with
      | none => some (Except.error ErrorBlock.NodeChainReferenceNotFound)
      | some tnode =>
          if tnode.isEqual b then
            some (Except.error ErrorBlock.TransactionAlreadyInBlock)
          else if tnode.isPreviousOf b then
            some (Except.ok
              { blocks := chain.blocks ++ [NodeChain.mk' b t]
                last_blocks := chain.last_blocks.set i chain.blocks.length })
          else
            match appendInnerLoop chain tnode t b fuel with
            | none => none
            | some (some r) => some r
            | some none => appendBlockGo chain b (i + 1) tips fuel

/-- `BlockChain::append_block` with explicit fuel for the inner ancestor
loop; `none` means that loop was still running when the fuel ran out. -/
def appendBlock (chain : BlockChain) (b : Block) (fuel : Nat) :
    Option (Except ErrorBlock BlockChain) :=
  appendBlockGo chain b 0 chain.last_blocks fuel

/-- `BlockChain::append_header`: append the header as a header-only block. -/
def appendHeader (chain : BlockChain) (h : BlockHeader) (fuel : Nat) :
    Option (Except ErrorBlock BlockChain) :=
  appendBlock chain (Block.new h) fuel

/-! ## Initial headers download
(src/node_structure/initial_block_download.rs) -/

/-- The node errors of error_node.rs used here. -/
inductive ErrorNode where
  | WhileValidating (msg : String)
  | NodeNotResponding (msg : String)
deriving DecidableEq

/-- The message errors of error_message.rs used here. -/
inductive ErrorMessage where
  | RequestedDataTooBig
  | InDeserialization (msg : String)
deriving DecidableEq

/-- The body of `InitialBlockDownload::add_headers_to_blockchain`: walk the
received headers; the proof-of-work rejection is disabled in the source by an
`&& false` (annotated `// cambiar`), kept verbatim here; a failed append logs
and breaks, returning the count added so far. The chain threads through the
fold; `none` propagates a non-terminating `append_header`. -/
def addHeadersGo (chain : BlockChain) (added : Nat) (fuel : Nat) :
    List BlockHeader → Option (Except ErrorNode (BlockChain × Nat))
  | [] => some (Except.ok (chain, added))
  | h :: rest =>
      if (!proofOfWork h) && false then
        some (Except.error (ErrorNode.WhileValidating
          "Error while validating proof of work"))
      else
        match appendHeader chain h fuel with
        | none => none
        | some (Except.ok chain') => addHeadersGo chain' (added + 1) fuel rest
        | some (Except.error _) => some (Except.ok (chain, added))

/-- `InitialBlockDownload::add_headers_to_blockchain`
(src/node_structure/initial_block_download.rs): returns the updated chain and
the number of appended headers. -/
def addHeadersToBlockchain (chain : BlockChain) (headers : List BlockHeader)
    (fuel : Nat) : Option (Except ErrorNode (BlockChain × Nat)) :=
  addHeadersGo chain 0 fuel headers

/-! ## Block download (src/node_structure/initial_block_download.rs
`get_data`, src/node_structure/block_download.rs). The peer stream is
modelled as the list of block payloads it will deliver, in order. -/

/-- A `getdata` request for the given hashes
(get_data_message.rs is absent from src/; the spec's payload is the list of
type-identifier/hash pairs, determined by the hashes). -/
structure GetDataMessage where
  hashes : List Bytes
deriving DecidableEq

/-- The cap constant `MAX_HEADERS_COUNT` of both download files. -/
def MAX_HEADERS_COUNT : Nat := 50000

/-- The block-receiving loop shared by
`InitialBlockDownload::get_data` and `BlockDownload::receive_blocks`: read
`count` block messages off the stream and push every block unvalidated — the
merkle check is disabled in the source (`true || proof_of_inclusion()` in the
former, commented out in the latter). Reading past the stream is a
deserialization failure. -/
def receiveBlocksGo (acc : List Block) :
    Nat → List Block → Except ErrorMessage (List Block)
  | 0, _ => Except.ok acc.reverse
  | _ + 1, [] =>
      Except.error (ErrorMessage.InDeserialization
        "Error while receiving block message")
  | count + 1, b :: stream =>
      if (true || b.proofOfInclusion) = true then
        receiveBlocksGo (b :: acc) count stream
      else
        Except.error (ErrorMessage.InDeserialization
          "Error while receiving block message")

/-- `InitialBlockDownload::get_data`
(src/node_structure/initial_block_download.rs): reject 50,000 hashes or more
before sending, otherwise read one block per hash. -/
def initialGetData (hashed_headers : List Bytes) (stream : List Block) :
    Except ErrorMessage (List Block) :=
  if hashed_headers.length ≥ MAX_HEADERS_COUNT then
    Except.error ErrorMessage.RequestedDataTooBig
  else
    receiveBlocksGo [] hashed_headers.length stream

/-- The `getdata` request `BlockDownload::get_data` sends, or `none` when the
size check rejects the call before anything is written to the peer. -/
def blockDownloadSentRequest (hashed_headers : List Bytes) :
    Option GetDataMessage :=
  if hashed_headers.length ≥ MAX_HEADERS_COUNT then none
  else some ⟨hashed_headers⟩

/-- `BlockDownload::get_data` (src/node_structure/block_download.rs): reject
50,000 hashes or more with `RequestedDataTooBig`, otherwise send the request
and read one block per hash. -/
def blockDownloadGetData (hashed_headers : List Bytes) (stream : List Block) :
    Except ErrorMessage (List Block) :=
  if hashed_headers.length ≥ MAX_HEADERS_COUNT then
    Except.error ErrorMessage.RequestedDataTooBig
  else
    receiveBlocksGo [] hashed_headers.length stream

/-! ## Wallet: addresses, accounts, transaction assembly
(src/wallet_structure/address.rs, account.rs,
src/block_structure/transaction_input.rs; utxo_set.rs, transaction.rs,
private_key.rs are absent from src/ and modelled from the spec) -/

/-- The wallet errors of error_wallet.rs used here. -/
inductive ErrorWallet where
  | NotEnoughFunds (msg : String)
  | CannotCreateNewTransaction (msg : String)
deriving DecidableEq

/-- An address: its 25 decoded Base58Check bytes and its string form
(src/wallet_structure/address.rs). -/
structure Address where
  address_bytes : Bytes
  address_string : String
deriving DecidableEq

/-- `Address::extract_hashed_pk`: bytes 1..21 of the address, the embedded
hash160. -/
def Address.extract_hashed_pk (a : Address) : Bytes :=
  (a.address_bytes.drop 1).take 20

/-- `Address::generate_script_pubkey_p2pkh`: `0x76 0xa9 0x14`, the hash160,
`0x88 0xac`. -/
def Address.generate_script_pubkey_p2pkh (a : Address) : Bytes :=
  [0x76, 0xa9, 0x14] ++ a.extract_hashed_pk ++ [0x88, 0xac]

/-- `Address::verify_transaction_ownership`
(src/wallet_structure/address.rs): the output's pk-script must be 25 bytes,
carry the five P2PKH opcode bytes at positions 0, 1, 2, 23, 24, and embed
this address's hash160 at positions 3..23. -/
def Address.verify_transaction_ownership (a : Address) (txo : TransactionOutput) : Bool :=
  if txo.pk_script.length ≠ 25 then false
  else if txo.pk_script.getD 0 0 ≠ 0x76 ∨ txo.pk_script.getD 1 0 ≠ 0xa9 ∨
          txo.pk_script.getD 2 0 ≠ 0x14 ∨ txo.pk_script.getD 23 0 ≠ 0x88 ∨
          txo.pk_script.getD 24 0 ≠ 0xac then false
  else decide (((txo.pk_script.drop 3).take 20) = a.extract_hashed_pk)

/-- An account (src/wallet_structure/account.rs): name, raw private key,
compressed public key, address. -/
structure Account where
  account_name : String
  private_key : Bytes
  public_key : Bytes
  address : Address
deriving DecidableEq

/-- Modelled from the spec: ECDSA/secp256k1 signing is an external crypto
primitive (private_key.rs is absent from src/); the claims under analysis
concern only the digest handed to it, so the DER signature bytes are left as
the digest itself. -/
def Account.sign (_ : Account) (message : Bytes) : Bytes :=
  message

/-- The default input sequence of transaction_input.rs. -/
def DEFAULT_SEQUENCE : Nat := 0xFFFFFFFF

/-- The digest `TransactionInput::create_signature_script`
(src/block_structure/transaction_input.rs) passes to `account.sign`: the
`hash256` of one serialized input whose outpoint is the one being spent,
whose script is the referenced output's pk-script and whose sequence is
0xFFFFFFFF. -/
def createSignatureDigest (output_information : Outpoint × TransactionOutput) : Bytes :=
  hash256 (serializeTransactionInput
    ⟨output_information.1, output_information.2.pk_script, DEFAULT_SEQUENCE⟩)

/-- `TransactionInput::create_signature_script`: sign the digest, append the
1-byte SIGHASH_ALL, append the compressed public key. -/
def createSignatureScript (output_information : Outpoint × TransactionOutput)
    (account : Account) : Bytes :=
  account.sign (createSignatureDigest output_information) ++ [1] ++ account.public_key

/-- The serialized copy of a transaction in which every input's signature
script is emptied except input `i`, whose script is set to `pkScript`,
followed by the 4-byte SIGHASH_ALL suffix. This definition follows the
claim's words (the spec's signing preimage), for comparison with the digest
the source actually computes. -/
def specSighashAllPreimage (t : Transaction) (i : Nat) (pkScript : Bytes) : Bytes :=
  serializeTransaction
    { t with
      tx_in := (t.tx_in.enum).map (fun p =>
        { p.2 with signature_script := if p.1 = i then pkScript else [] }) } ++
  [0x01, 0x00, 0x00, 0x00]

/-- The spec's signing digest: double SHA-256 of the SIGHASH_ALL preimage. -/
def specSighashAllDigest (t : Transaction) (i : Nat) (pkScript : Bytes) : Bytes :=
  hash256d (specSighashAllPreimage t i pkScript)

/-- Modelled from the spec: the UTXO set is a map from outpoints to outputs
plus the list of pending transactions (utxo_set.rs is absent from src/). -/
structure UTXOSet where
  utxo : List (Outpoint × TransactionOutput)
  pending_transactions : List Transaction
deriving DecidableEq

/-- Modelled from the spec: the unspent outputs matching an address, found by
the P2PKH ownership test. -/
def UTXOSet.get_utxo_list_with_outpoints (u : UTXOSet) (a : Address) :
    List (Outpoint × TransactionOutput) :=
  u.utxo.filter (fun p => a.verify_transaction_ownership p.2)

/-- The outpoints a transaction spends. -/
def outpointsOf (t : Transaction) : List Outpoint :=
  t.tx_in.map (fun i => i.previous_output)

/-- Modelled from the spec: two outpoint lists carry the same set. -/
def sameOutpointSet (a b : List Outpoint) : Bool :=
  a.all (fun o => o ∈ b) && b.all (fun o => o ∈ a)

/-- Modelled from the spec: a transaction is already pending when its
outpoint set matches an existing pending transaction's. -/
def UTXOSet.is_transaction_pending (u : UTXOSet) (t : Transaction) : Bool :=
  u.pending_transactions.any (fun p => sameOutpointSet (outpointsOf p) (outpointsOf t))

/-- Modelled from the spec: appending a pending transaction. -/
def UTXOSet.append_pending_transaction (u : UTXOSet) (t : Transaction) : UTXOSet :=
  { u with pending_transactions := u.pending_transactions ++ [t] }

/-- Modelled from the spec: a transaction belongs to an address when some
output's pk-script encodes that address (`Transaction::verify_transaction_ownership`;
transaction.rs is absent from src/). -/
def transactionOwnedBy (t : Transaction) (a : Address) : Bool :=
  t.tx_out.any (fun o => a.verify_transaction_ownership o)

/-- `Account::verify_transaction_ownership`
(src/wallet_structure/account.rs). -/
def Account.verify_transaction_ownership (acct : Account) (t : Transaction) : Bool :=
  transactionOwnedBy t acct.address

/-- Insertion step of the descending sort `available_outputs.sort_by` in
`Account::create_transaction` (largest value first). -/
def insertDescByValue (x : Outpoint × TransactionOutput) :
    List (Outpoint × TransactionOutput) → List (Outpoint × TransactionOutput)
  | [] => [x]
  | y :: ys =>
      if y.2.value < x.2.value then x :: y :: ys else y :: insertDescByValue x ys

/-- The descending-by-value sort of `Account::create_transaction`. -/
def sortDescByValue (l : List (Outpoint × TransactionOutput)) :
    List (Outpoint × TransactionOutput) :=
  l.foldr insertDescByValue []

/-- The accumulation loop of `Account::create_transaction`: push outputs and
stop as soon as the running value reaches `amount + fee`; returns the final
running value and the outputs chosen. -/
def collectOutputs (threshold : Int) (input_amount : Int)
    (chosen : List (Outpoint × TransactionOutput)) :
    List (Outpoint × TransactionOutput) → Int × List (Outpoint × TransactionOutput)
  | [] => (input_amount, chosen.reverse)
  | x :: rest =>
      let acc := input_amount + x.2.value
      if acc ≥ threshold then (acc, (x :: chosen).reverse)
      else collectOutputs threshold acc (x :: chosen) rest

/-- Modelled from the spec: `Transaction::from_account_to_address`
(transaction.rs is absent from src/) — inputs spending the chosen outpoints
with sequence 0xFFFFFFFF and scripts assembled through signing, outputs
paying `amount` to the destination and the change back to the account,
omitting a zero change output. -/
def fromAccountToAddress (account : Account)
    (outputs_to_spend : List (Outpoint × TransactionOutput)) (toAddr : Address)
    (amount fee : Int) : Except ErrorWallet Transaction :=
  let change := (outputs_to_spend.map (fun p => p.2.value)).sum - amount - fee
  Except.ok
    { version := 1
      tx_in := outputs_to_spend.map (fun p =>
        ⟨p.1, createSignatureScript p account, DEFAULT_SEQUENCE⟩)
      tx_out := ⟨amount, toAddr.generate_script_pubkey_p2pkh⟩ ::
        (if change = 0 then []
         else [⟨change, account.address.generate_script_pubkey_p2pkh⟩])
      time := 0 }

/-- The accumulation phase of `Account::create_transaction`: the sorted,
filtered outputs folded by `collectOutputs` — the final running value and the
chosen outputs. -/
def Account.collectedFor (acct : Account) (amount fee : Int) (utxo_set : UTXOSet) :
    Int × List (Outpoint × TransactionOutput) :=
  collectOutputs (amount + fee) 0 []
    (sortDescByValue (utxo_set.get_utxo_list_with_outpoints acct.address))

/-- `Account::create_transaction` (src/wallet_structure/account.rs): filter
the UTXO by the account's address, sort descending by value, accumulate until
`amount + fee` is covered, fail with `NotEnoughFunds` when it is not, then
assemble the transaction (whose own errors are relabelled
`CannotCreateNewTransaction`). The UTXO set is taken by value and never
modified. -/
def Account.create_transaction (acct : Account) (toAddr : Address) (amount fee : Int)
    (utxo_set : UTXOSet) : Except ErrorWallet Transaction :=
  if (acct.collectedFor amount fee utxo_set).1 < amount + fee then
    Except.error (ErrorWallet.NotEnoughFunds
      "Not enough funds to create the transaction")
  else
    match fromAccountToAddress acct (acct.collectedFor amount fee utxo_set).2
        toAddr amount fee with
    | Except.ok transaction => Except.ok transaction
    | Except.error _ => Except.error (ErrorWallet.CannotCreateNewTransaction
        "Error while trying to create a new transaction")

/-! ## The chain updater's transaction path
(src/bin/bitcoin/process/broadcasting.rs, `receive_transaction`) -/

/-- The notification emitted when a received transaction belongs to wallet
accounts. -/
inductive Notification where
  | TransactionOfAccountReceived (accounts : List Account) (t : Transaction)
deriving DecidableEq

/-- `receive_transaction` (src/bin/bitcoin/process/broadcasting.rs): an
already-pending transaction is dropped; otherwise the owning accounts are
collected, a `TransactionOfAccountReceived` notification goes out when there
are any, and the transaction is appended to the pending list. Returns the
updated UTXO set and the notifications sent. -/
def receiveTransaction (wallet : List Account) (utxo_set : UTXOSet)
    (transaction : Transaction) : UTXOSet × List Notification :=
  if utxo_set.is_transaction_pending transaction then (utxo_set, [])
  else
    let involved_accounts := wallet.filter
      (fun account => account.verify_transaction_ownership transaction)
    let notifications := if involved_accounts.isEmpty then []
      else [Notification.TransactionOfAccountReceived involved_accounts transaction]
    (utxo_set.append_pending_transaction transaction, notifications)

/-! ## Concrete instances used by the theorems -/

/-- The genesis block, as the chain engine's root. -/
def genesisBlock : Block :=
  Block.new generateGenesisBlockHeader

/-- A header whose parent is the genesis header. -/
def headerA : BlockHeader :=
  ⟨1, blockHeaderHash generateGenesisBlockHeader, List.replicate 32 0, 0,
    Compact256.fromU32 0x1d00ffff, 1⟩

/-- A second header whose parent is the genesis header, distinct from
`headerA`. -/
def headerB : BlockHeader :=
  ⟨1, blockHeaderHash generateGenesisBlockHeader, List.replicate 32 0, 0,
    Compact256.fromU32 0x1d00ffff, 2⟩

/-- A header whose parent is the genesis header and whose compact target word
is zero, so its proof of work fails. -/
def powlessHeader : BlockHeader :=
  ⟨1, blockHeaderHash generateGenesisBlockHeader, List.replicate 32 0, 0,
    Compact256.fromU32 0, 0⟩

/-- A header whose parent hash matches no block of any chain built here. -/
def strayHeader : BlockHeader :=
  ⟨1, List.replicate 32 0xAA, List.replicate 32 0, 0,
    Compact256.fromU32 0x1d00ffff, 3⟩

/-- The chain holding the genesis root and `headerA` linked to it: what
`BlockChain::new` followed by `append_header(headerA)` builds. -/
def chainGA : BlockChain :=
  ⟨[NodeChain.first genesisBlock, NodeChain.mk' (Block.new headerA) 0], [1]⟩

/-- The chain after appending `headerB` (parent: genesis, a non-tip node) to
`chainGA`: the new node records index 1 — the tip used during the search —
as its parent. -/
def chainGAB : BlockChain :=
  ⟨[NodeChain.first genesisBlock, NodeChain.mk' (Block.new headerA) 0,
    NodeChain.mk' (Block.new headerB) 1], [1, 2]⟩

/-- The chain after appending `headerB` to `chainGAB` a second time: the
block is duplicated and a third tip appears. -/
def chainGABB : BlockChain :=
  ⟨[NodeChain.first genesisBlock, NodeChain.mk' (Block.new headerA) 0,
    NodeChain.mk' (Block.new headerB) 1, NodeChain.mk' (Block.new headerB) 1],
   [1, 2, 3]⟩

/-- A transaction with no inputs and no outputs. -/
def emptyTx : Transaction :=
  ⟨1, [], [], 0⟩

/-- A block carrying one transaction whose txid differs from the header's
all-zero merkle root, so its proof of inclusion fails. -/
def badMerkleBlock : Block :=
  ⟨⟨1, List.replicate 32 0, List.replicate 32 0, 0, Compact256.fromU32 0, 0⟩,
   [emptyTx]⟩

/-- An arbitrary 32-byte hash value for requests. -/
def someHash : Bytes :=
  List.replicate 32 5

/-- The outpoint spent in the signing-digest comparison. -/
def c2Outpoint : Outpoint :=
  ⟨List.replicate 32 3, 0⟩

/-- The referenced P2PKH output spent in the signing-digest comparison. -/
def c2Output : TransactionOutput :=
  ⟨5000, [0x76, 0xa9, 0x14] ++ List.replicate 20 7 ++ [0x88, 0xac]⟩

/-- The wallet-assembled transaction whose single input spends `c2Outpoint`:
one input with an empty script before signing, one P2PKH output. -/
def c2Tx : Transaction :=
  ⟨1, [⟨c2Outpoint, [], DEFAULT_SEQUENCE⟩],
   [⟨4000, [0x76, 0xa9, 0x14] ++ List.replicate 20 9 ++ [0x88, 0xac]⟩], 0⟩

/-- A 25-byte testnet address embedding the hash160 `7 7 ... 7`. -/
def addrW : Address :=
  ⟨0x6f :: (List.replicate 20 7 ++ [1, 2, 3, 4]), "addr"⟩

/-- An account holding `addrW`. -/
def acctW : Account :=
  ⟨"acct", List.replicate 32 1, List.replicate 33 2, addrW⟩

/-- A UTXO set with a single 5000-satoshi output owned by `addrW`. -/
def utxoW : UTXOSet :=
  ⟨[(⟨List.replicate 32 4, 1⟩,
     ⟨5000, [0x76, 0xa9, 0x14] ++ List.replicate 20 7 ++ [0x88, 0xac]⟩)], []⟩

/-! ## Helper lemmas -/

/-- The block-receiving loop consumes exactly `n` blocks and returns them in
order after the accumulator. -/
theorem receiveBlocksGo_replicate (acc : List Block) (n : Nat) (b : Block) :
    receiveBlocksGo acc n (List.replicate n b) =
      Except.ok (acc.reverse ++ List.replicate n b) := by
  induction n generalizing acc with
  | zero => simp [receiveBlocksGo]
  | succ n ih => simp [receiveBlocksGo, List.replicate_succ, ih]

/-- The block-receiving loop never reports `RequestedDataTooBig`. -/
theorem receiveBlocksGo_ne_too_big (acc : List Block) (n : Nat)
    (stream : List Block) :
    receiveBlocksGo acc n stream ≠ Except.error ErrorMessage.RequestedDataTooBig := by
  induction n generalizing acc stream with
  | zero => simp [receiveBlocksGo]
  | succ n ih =>
      cases stream with
      | nil => simp [receiveBlocksGo]
      | cons b s => simpa [receiveBlocksGo] using ih (b :: acc) s

/-! ## Claim C3 -/

/-- C3 (code_bug): a block failing proof of inclusion — here one whose single
transaction's txid differs from the header's merkle root — is nevertheless
returned in the downloaded set by both block-download paths, because the
merkle check is disabled in the source (`true || proof_of_inclusion()` in
`InitialBlockDownload::get_data`, commented out in
`BlockDownload::receive_blocks`). -/
theorem block_download_accepts_merkle_invalid_block :
    badMerkleBlock.proofOfInclusion = false ∧
    initialGetData [someHash] [badMerkleBlock] = Except.ok [badMerkleBlock] ∧
    blockDownloadGetData [someHash] [badMerkleBlock] = Except.ok [badMerkleBlock] := by
  refine ⟨by decide, by decide, by decide⟩

/-! ## Claim C8 -/

/-- C8 counterexample: a request of exactly 50,000 hashes — which the claim
says can be sent and succeed — is rejected with `RequestedDataTooBig` before
anything is sent, by both download paths. -/
theorem get_data_rejects_exactly_50000 :
    blockDownloadGetData (List.replicate 50000 someHash) [] =
      Except.error ErrorMessage.RequestedDataTooBig ∧
    blockDownloadSentRequest (List.replicate 50000 someHash) = none ∧
    initialGetData (List.replicate 50000 someHash) [] =
      Except.error ErrorMessage.RequestedDataTooBig := by
  have hcond : (List.replicate 50000 someHash).length ≥ MAX_HEADERS_COUNT := by
    rw [List.length_replicate]
    exact Nat.le_refl _
  refine ⟨?_, ?_, ?_⟩
  · unfold blockDownloadGetData
    rw [if_pos hcond]
  · unfold blockDownloadSentRequest
    rw [if_pos hcond]
  · unfold initialGetData
    rw [if_pos hcond]

/-- C8 (corrected): the `getdata` size gate rejects with
`RequestedDataTooBig` exactly when the hash list holds 50,000 hashes or more
— so at most 49,999 may be requested — and below that bound the request is
sent and the call succeeds once the peer delivers one block per hash. -/
theorem get_data_cap_boundary (hashes : List Bytes) (b : Block)
    (stream : List Block) :
    (blockDownloadGetData hashes stream = Except.error ErrorMessage.RequestedDataTooBig
       ↔ MAX_HEADERS_COUNT ≤ hashes.length) ∧
    (initialGetData hashes stream = Except.error ErrorMessage.RequestedDataTooBig
       ↔ MAX_HEADERS_COUNT ≤ hashes.length) ∧
    (hashes.length < MAX_HEADERS_COUNT →
      blockDownloadSentRequest hashes = some ⟨hashes⟩ ∧
      blockDownloadGetData hashes (List.replicate hashes.length b) =
        Except.ok (List.replicate hashes.length b) ∧
      initialGetData hashes (List.replicate hashes.length b) =
        Except.ok (List.replicate hashes.length b)) := by
  refine ⟨?_, ?_, fun h => ⟨?_, ?_, ?_⟩⟩
  · unfold blockDownloadGetData
    split_ifs with h
    · simp [h]
    · simp [receiveBlocksGo_ne_too_big, h]
  · unfold initialGetData
    split_ifs with h
    · simp [h]
    · simp [receiveBlocksGo_ne_too_big, h]
  · simp [blockDownloadSentRequest, Nat.not_le.mpr h]
  · unfold blockDownloadGetData
    simp only [Nat.not_le.mpr h, ge_iff_le, if_neg (Nat.not_le.mpr h)]
    simpa using receiveBlocksGo_replicate [] hashes.length b
  · unfold initialGetData
    simp only [Nat.not_le.mpr h, ge_iff_le, if_neg (Nat.not_le.mpr h)]
    simpa using receiveBlocksGo_replicate [] hashes.length b

/-- C8 witness: a one-hash request goes out and succeeds on a one-block
stream. -/
theorem get_data_cap_boundary_witness :
    blockDownloadSentRequest [someHash] = some ⟨[someHash]⟩ ∧
    blockDownloadGetData [someHash] [badMerkleBlock] =
      Except.ok [badMerkleBlock] := by
  have h := (get_data_cap_boundary [someHash] badMerkleBlock []).2.2
    (by simp [MAX_HEADERS_COUNT])
  exact ⟨h.1, by simpa using h.2.1⟩

/-! ## Claim C9 -/

/-- C9 counterexample: with an empty wallet no account owns the incoming
transaction, yet `receive_transaction` appends it to the pending list — the
claim says an unowned transaction is not appended. -/
theorem receive_transaction_appends_unowned :
    UTXOSet.is_transaction_pending ⟨[], []⟩ emptyTx = false ∧
    receiveTransaction [] ⟨[], []⟩ emptyTx = (⟨[], [emptyTx]⟩, []) := by
  exact ⟨by decide, by decide⟩

/-- C9 (corrected): an already-pending transaction is dropped unchanged with
no notification; otherwise the transaction is appended to the pending list
unconditionally — not only when owned — while the
`TransactionOfAccountReceived` notification, carrying the owning accounts, is
emitted exactly when some wallet account owns the transaction. -/
theorem receive_transaction_pending_and_notification (wallet : List Account)
    (u : UTXOSet) (t : Transaction) :
    ((receiveTransaction wallet u t).1.pending_transactions =
       if u.is_transaction_pending t then u.pending_transactions
       else u.pending_transactions ++ [t]) ∧
    ((receiveTransaction wallet u t).2 =
       if u.is_transaction_pending t ||
          (wallet.filter (fun a => a.verify_transaction_ownership t)).isEmpty
       then []
       else [Notification.TransactionOfAccountReceived
               (wallet.filter (fun a => a.verify_transaction_ownership t)) t]) := by
  unfold receiveTransaction UTXOSet.append_pending_transaction
  by_cases h : u.is_transaction_pending t <;> simp [h]

/-! ## Claim C1 -/

/-- C1 (code_bug): the proof-of-work rejection in
`InitialBlockDownload::add_headers_to_blockchain` is disabled by `&& false`
(annotated `// cambiar`), so `powlessHeader` — whose proof of work is false —
is appended to the chain during the initial headers download instead of being
skipped. -/
theorem initial_headers_pow_disabled :
    proofOfWork powlessHeader = false ∧
    addHeadersToBlockchain (BlockChain.new genesisBlock) [powlessHeader] 1 =
      some (Except.ok
        (⟨[NodeChain.first genesisBlock,
           NodeChain.mk' (Block.new powlessHeader) 0], [1]⟩, 1)) := by
  exact ⟨by decide, by decide⟩

/-! ## Claim C2 -/

/-- C2 (code_bug): the digest `create_signature_script` hands to the signer
is the `hash256` of one serialized input (outpoint, the referenced output's
pk-script, sequence) — not the double SHA-256 of the whole transaction with
the other scripts emptied followed by the 4-byte SIGHASH_ALL suffix that the
claim (and Bitcoin's SIGHASH_ALL) prescribes; on this concrete
single-input transaction the two digests differ. -/
theorem signing_digest_diverges_from_sighash_all :
    createSignatureDigest (c2Outpoint, c2Output) ≠
      specSighashAllDigest c2Tx 0 c2Output.pk_script := by
  decide

/-! ## Claim C4 -/

/-- C4 counterexample: on the chain `chainGA` (root plus one child, tip at
index 1) the block for `headerB`, whose parent — the genesis root — is a
node of the chain, is appended twice: the second `append_block` does not
leave the chain unchanged but stores a duplicate node and a third tip,
because the duplicate check only inspects the tips and their immediate
predecessors along the (broken) ancestor walk. -/
theorem append_block_reapply_duplicates_block :
    appendBlock chainGA (Block.new headerB) 2 = some (Except.ok chainGAB) ∧
    appendBlock chainGAB (Block.new headerB) 2 = some (Except.ok chainGABB) ∧
    chainGABB ≠ chainGAB := by
  refine ⟨by decide, by decide, by decide⟩

/-- C4 (corrected, amended claim): for every chain whose tip list is the
single index `t` holding a node `tnode`, and every block `B` whose parent is
that tip (`tnode` precedes `B` and is not `B` itself), the first
`append_block(B)` adds the one node and moves the tip, and the second
`append_block(B)` reports `TransactionAlreadyInBlock` — in this pure
embedding an error result leaves the chain exactly as it was, so the second
call changes nothing. -/
theorem append_block_idempotent_on_unique_tip (c : BlockChain) (t : Nat)
    (tnode : NodeChain) (B : Block) (fuel : Nat)
    (h1 : c.last_blocks = [t])
    (h2 : c.blocks[t]? = some tnode)
    (h3 : tnode.isEqual B = false)
    (h4 : tnode.isPreviousOf B = true) :
    appendBlock c B fuel =
      some (Except.ok ⟨c.blocks ++ [NodeChain.mk' B t], [c.blocks.length]⟩) ∧
    appendBlock ⟨c.blocks ++ [NodeChain.mk' B t], [c.blocks.length]⟩ B fuel =
      some (Except.error ErrorBlock.TransactionAlreadyInBlock) := by
  constructor
  · unfold appendBlock
    rw [h1]
    simp only [appendBlockGo, h2, h3, h4]
    simp [h1]
  · unfold appendBlock
    simp only [appendBlockGo, List.getElem?_concat_length]
    have heq : (NodeChain.mk' B t).isEqual B = true := by
      simp [NodeChain.isEqual, NodeChain.mk']
    simp [heq]

/-- C4 witness: the amended theorem applied to the fresh genesis chain and
the block for `headerB`, whose parent is the unique tip (the root). -/
theorem append_block_idempotent_on_unique_tip_witness :
    appendBlock (BlockChain.new genesisBlock) (Block.new headerB) 0 =
      some (Except.ok ⟨(BlockChain.new genesisBlock).blocks ++
        [NodeChain.mk' (Block.new headerB) 0],
        [(BlockChain.new genesisBlock).blocks.length]⟩) ∧
    appendBlock ⟨(BlockChain.new genesisBlock).blocks ++
        [NodeChain.mk' (Block.new headerB) 0],
        [(BlockChain.new genesisBlock).blocks.length]⟩ (Block.new headerB) 0 =
      some (Except.error ErrorBlock.TransactionAlreadyInBlock) :=
  append_block_idempotent_on_unique_tip (BlockChain.new genesisBlock) 0
    (NodeChain.first genesisBlock) (Block.new headerB) 0 (by decide) (by decide)
    (by decide) (by decide)

/-! ## Claim C5 -/

/-- C5 (code_bug): after appending `headerA` (child of the root) and then
`headerB` (also a child of the root, a non-tip ancestor), the new node at
index 2 records index 1 — the tip used during the search — as its parent,
yet its `previous_block_header_hash` is the identity of node 0, not of node
1: the stored-parent invariant is violated because the inner loop of
`append_block` passes `*index_last_block` instead of `index_previous_node`
to `NodeChain::new`. -/
theorem append_block_records_tip_not_ancestor_parent :
    appendBlock chainGA (Block.new headerB) 2 = some (Except.ok chainGAB) ∧
    chainGAB.blocks[2]? = some (NodeChain.mk' (Block.new headerB) 1) ∧
    (chainGAB.blocks[1]?.map (fun n =>
      blockHeaderHash n.block.header ==
        (Block.new headerB).header.previous_block_header_hash)) = some false ∧
    (chainGAB.blocks[0]?.map (fun n =>
      blockHeaderHash n.block.header ==
        (Block.new headerB).header.previous_block_header_hash)) = some true := by
  refine ⟨by decide, by decide, by decide, by decide⟩

/-! ## Claim C6 -/

/-- The tip node of `chainGA` is not the stray block. -/
theorem c6f1 :
    (NodeChain.mk' (Block.new headerA) 0).isEqual (Block.new strayHeader) = false := by
  decide

/-- The tip node of `chainGA` does not precede the stray block. -/
theorem c6f2 :
    (NodeChain.mk' (Block.new headerA) 0).isPreviousOf (Block.new strayHeader) = false := by
  decide

/-- The root node of `chainGA` is not the stray block. -/
theorem c6f3 :
    (NodeChain.first genesisBlock).isEqual (Block.new strayHeader) = false := by
  decide

/-- The root node of `chainGA` does not precede the stray block. -/
theorem c6f4 :
    (NodeChain.first genesisBlock).isPreviousOf (Block.new strayHeader) = false := by
  decide

/-- The inner ancestor loop re-reads the unchanged tip's predecessor forever
when the stray block matches neither: no fuel is ever enough. -/
theorem c6_inner_none (fuel : Nat) :
    appendInnerLoop chainGA (NodeChain.mk' (Block.new headerA) 0) 1
      (Block.new strayHeader) fuel = none := by
  induction fuel with
  | zero => rfl
  | succ n ih =>
      have hget : chainGA.blocks[0]? = some (NodeChain.first genesisBlock) := rfl
      simp only [appendInnerLoop, NodeChain.mk', hget, c6f3, c6f4,
        Bool.false_eq_true, if_false]
      exact ih

/-- C6 (code_bug): `append_block` fails to terminate on a 2-node chain and a
block matching neither the tip nor the tip's predecessor: the inner
`while let` loop shadows `last_block` inside its body, so the loop condition
keeps reading the unchanged outer tip node and no fuel bound ever completes
the call. -/
theorem append_block_ancestor_loop_diverges (fuel : Nat) :
    appendBlock chainGA (Block.new strayHeader) fuel = none := by
  have hlast : chainGA.last_blocks = [1] := rfl
  have hget : chainGA.blocks[1]? = some (NodeChain.mk' (Block.new headerA) 0) := rfl
  unfold appendBlock
  rw [hlast]
  simp only [appendBlockGo, hget, c6f1, c6f2, Bool.false_eq_true, if_false,
    c6_inner_none]

/-! ## Claim C7 -/

/-- Inserting into the descending sort permutes. -/
theorem insertDescByValue_perm (x : Outpoint × TransactionOutput)
    (l : List (Outpoint × TransactionOutput)) :
    (insertDescByValue x l).Perm (x :: l) := by
  induction l with
  | nil => simp [insertDescByValue]
  | cons y ys ih =>
      unfold insertDescByValue
      split_ifs with h
      · exact List.Perm.refl _
      · exact (ih.cons y).trans (List.Perm.swap x y ys)

/-- The descending sort of `create_transaction` permutes its input. -/
theorem sortDescByValue_perm (l : List (Outpoint × TransactionOutput)) :
    (sortDescByValue l).Perm l := by
  induction l with
  | nil => simp [sortDescByValue]
  | cons x xs ih =>
      exact (insertDescByValue_perm x (sortDescByValue xs)).trans (ih.cons x)

/-- On non-negative values, the accumulate-until-covered loop ends short of
the threshold exactly when even the whole list would: the early break can
only fire once the threshold is reached. -/
theorem collectOutputs_lt_iff (thr acc : Int)
    (chosen l : List (Outpoint × TransactionOutput))
    (h : ∀ p ∈ l, 0 ≤ p.2.value) :
    ((collectOutputs thr acc chosen l).1 < thr ↔
      acc + (l.map (fun p => p.2.value)).sum < thr) := by
  induction l generalizing acc chosen with
  | nil => simp [collectOutputs]
  | cons x xs ih =>
      have hx : 0 ≤ x.2.value := h x (List.mem_cons_self x xs)
      have hs : 0 ≤ (xs.map (fun p => p.2.value)).sum := by
        apply List.sum_nonneg
        intro v hv
        obtain ⟨p, hp, rfl⟩ := List.mem_map.mp hv
        exact h p (List.mem_cons_of_mem x hp)
      unfold collectOutputs
      simp only [List.map_cons, List.sum_cons]
      split_ifs with hge
      · constructor
        · intro hlt
          omega
        · intro hlt
          omega
      · rw [ih (acc + x.2.value) (x :: chosen)
          (fun p hp => h p (List.mem_cons_of_mem x hp))]
        omega

/-- C7 (confirmed): under the spec's UTXO invariant that output values are
non-negative, `create_transaction` returns `NotEnoughFunds` exactly when the
summed value of the account's P2PKH-matching unspent outputs is strictly
below `amount + fee`; the embedding is pure, so a failing call leaves the
UTXO set untouched and yields no transaction. -/
theorem create_transaction_not_enough_funds_iff (acct : Account)
    (toAddr : Address) (amount fee : Int) (u : UTXOSet)
    (hvals : ∀ p ∈ u.get_utxo_list_with_outpoints acct.address, 0 ≤ p.2.value) :
    ((∃ msg, acct.create_transaction toAddr amount fee u =
        Except.error (ErrorWallet.NotEnoughFunds msg)) ↔
      ((u.get_utxo_list_with_outpoints acct.address).map
          (fun p => p.2.value)).sum < amount + fee) := by
  have hperm := sortDescByValue_perm (u.get_utxo_list_with_outpoints acct.address)
  have hvals' : ∀ p ∈ sortDescByValue (u.get_utxo_list_with_outpoints acct.address),
      0 ≤ p.2.value := fun p hp => hvals p (hperm.mem_iff.mp hp)
  have hsum : ((sortDescByValue (u.get_utxo_list_with_outpoints acct.address)).map
        (fun p => p.2.value)).sum =
      ((u.get_utxo_list_with_outpoints acct.address).map (fun p => p.2.value)).sum :=
    (hperm.map (fun p => p.2.value)).sum_eq
  have hiff := collectOutputs_lt_iff (amount + fee) 0 []
    (sortDescByValue (u.get_utxo_list_with_outpoints acct.address)) hvals'
  rw [Int.zero_add, hsum] at hiff
  unfold Account.create_transaction
  split_ifs with hc
  · exact iff_of_true ⟨_, rfl⟩ (hiff.mp (by simpa [Account.collectedFor] using hc))
  · rw [Account.collectedFor] at hc
    refine iff_of_false ?_ (fun hcon => hc (hiff.mpr hcon))
    rintro ⟨msg, hmsg⟩
    revert hmsg
    cases fromAccountToAddress acct (acct.collectedFor amount fee u).2
        toAddr amount fee with
    | ok t => simp
    | error e => simp

/-- C7 witness: the spec's scenario — one 5000-satoshi UTXO, sending 4000
with fee 2000 — fails with `NotEnoughFunds`. -/
theorem create_transaction_not_enough_funds_iff_witness :
    ∃ msg, acctW.create_transaction addrW 4000 2000 utxoW =
      Except.error (ErrorWallet.NotEnoughFunds msg) :=
  (create_transaction_not_enough_funds_iff acctW addrW 4000 2000 utxoW
    (by decide)).mpr (by decide)

/-! ## Claim C10 -/

/-- A list of more than two elements starts with its first three entries. -/
theorem list_take_three (l : Bytes) (h : 2 < l.length) :
    l.take 3 = [l.getD 0 0, l.getD 1 0, l.getD 2 0] := by
  rcases l with _ | ⟨a, _ | ⟨b, _ | ⟨c, rest⟩⟩⟩
  · simp at h
  · simp at h
  · simp only [List.length_cons, List.length_nil] at h
    omega
  · simp [List.getD]

/-- A 25-element list ends with its entries 23 and 24. -/
theorem list_drop_twentythree (l : Bytes) (h : l.length = 25) :
    l.drop 23 = [l.getD 23 0, l.getD 24 0] := by
  have h23 : 23 < l.length := by omega
  have h24 : 24 < l.length := by omega
  rw [List.drop_eq_getElem_cons h23, List.drop_eq_getElem_cons h24,
    List.drop_eq_nil_of_le (by omega), List.getD_eq_getElem l 0 h23,
    List.getD_eq_getElem l 0 h24]

/-- C10 (confirmed): for a well-formed 25-byte address,
`verify_transaction_ownership` accepts an output exactly when its pk-script
is byte-for-byte `0x76 0xa9 0x14`, the address's 20-byte hash160, `0x88 0xac`
— that is, the P2PKH script the address itself generates; any other length,
opcode bytes, or hash yields false. -/
theorem verify_transaction_ownership_iff_p2pkh (a : Address)
    (txo : TransactionOutput) (h : a.address_bytes.length = 25) :
    (a.verify_transaction_ownership txo = true ↔
      txo.pk_script = a.generate_script_pubkey_p2pkh) := by
  have he : a.extract_hashed_pk.length = 20 := by
    simp [Address.extract_hashed_pk, h]
  unfold Address.verify_transaction_ownership Address.generate_script_pubkey_p2pkh
  split_ifs with hlen hops
  · refine iff_of_false (by simp) ?_
    intro hpk
    apply hlen
    rw [hpk]
    simp [he]
  · refine iff_of_false (by simp) ?_
    intro hpk
    have g23 : (([0x76, 0xa9, 0x14] : Bytes) ++
        (a.extract_hashed_pk ++ [0x88, 0xac])).getD 23 0 = 0x88 := by
      rw [List.getD_append_right _ _ _ _ (by simp)]
      have h2' : (a.extract_hashed_pk ++ ([0x88, 0xac] : Bytes)).getD 20 0 = 0x88 := by
        rw [List.getD_append_right _ _ _ _ (by omega), he]
        rfl
      calc (a.extract_hashed_pk ++ ([0x88, 0xac] : Bytes)).getD (23 - List.length [0x76, 0xa9, 0x14]) 0
          = (a.extract_hashed_pk ++ ([0x88, 0xac] : Bytes)).getD 20 0 := by norm_num
        _ = 0x88 := h2'
    have g24 : (([0x76, 0xa9, 0x14] : Bytes) ++
        (a.extract_hashed_pk ++ [0x88, 0xac])).getD 24 0 = 0xac := by
      rw [List.getD_append_right _ _ _ _ (by simp)]
      have h2' : (a.extract_hashed_pk ++ ([0x88, 0xac] : Bytes)).getD 21 0 = 0xac := by
        rw [List.getD_append_right _ _ _ _ (by omega), he]
        rfl
      calc (a.extract_hashed_pk ++ ([0x88, 0xac] : Bytes)).getD (24 - List.length [0x76, 0xa9, 0x14]) 0
          = (a.extract_hashed_pk ++ ([0x88, 0xac] : Bytes)).getD 21 0 := by norm_num
        _ = 0xac := h2'
    rcases hops with h0 | h1 | h2 | h23 | h24
    · exact h0 (by rw [hpk]; rfl)
    · exact h1 (by rw [hpk]; rfl)
    · exact h2 (by rw [hpk]; rfl)
    · exact h23 (by rw [hpk]; exact g23)
    · exact h24 (by rw [hpk]; exact g24)
  · rw [decide_eq_true_eq]
    push_neg at hlen hops
    obtain ⟨h0, h1, h2, h23, h24⟩ := hops
    constructor
    · intro hs
      have hrec : txo.pk_script =
          txo.pk_script.take 3 ++ ((txo.pk_script.drop 3).take 20 ++
            txo.pk_script.drop 23) := by
        rw [show (23 : Nat) = 3 + 20 from rfl, ← List.drop_drop]
        rw [List.take_append_drop, List.take_append_drop]
      rw [hrec, hs, list_take_three txo.pk_script (by omega),
        list_drop_twentythree txo.pk_script hlen, h0, h1, h2, h23, h24]
      exact (List.append_assoc _ _ _).symm
    · intro hpk
      rw [hpk, List.append_assoc, List.drop_left' (by simp)]
      exact List.take_left' he

/-- C10 witness: the concrete address `addrW` owns exactly the output whose
pk-script embeds its hash160. -/
theorem verify_transaction_ownership_iff_p2pkh_witness :
    addrW.verify_transaction_ownership c2Output = true :=
  (verify_transaction_ownership_iff_p2pkh addrW c2Output (by decide)).mpr
    (by decide)

end CargoSOS
